import Mathlib

/-!
Verification development for the session-kit repository: a shallow embedding of
the expiring key-value stores (in-process `MemoryStorage`, networked
`RedisStorage`, generic `RedisStore`/`KVManager`), the JSON serialization of
`SessionData` and `KVSessionRecord`, and the session lifecycle `Manager`.

Modelling conventions:
- instants (Go `time.Time`) are `Int` values (unix nanoseconds); the Go zero
  time is `0` where a zero value is produced, and "no expiry" is `Option.none`;
- durations (Go `time.Duration`) are `Int` nanosecond counts;
- byte strings (`[]byte`) are `List Nat`;
- Go maps are association lists with unique keys (insertion overwrites);
- a Go run-time panic is modelled as `Option.none` of the affected operation;
- a returned Go `error` is an `Option String` channel (`none` = nil error).
-/

namespace SessionKit

/-! ## Association-list operations standing for Go map update / delete -/

/-- Go map assignment `m[k] = v`: makes `k` map to `v`, keeping keys unique. -/
def mapInsert (k : String) (v : α) (l : List (String × α)) : List (String × α) :=
  (k, v) :: l.filter (fun p => !(p.1 == k))

/-- Go map lookup `m[k]`. -/
def mapFind (k : String) : List (String × α) → Option α
  | [] => none
  | (k', v) :: rest => if k' = k then some v else mapFind k rest

/-- Go `delete(m, k)`. -/
def mapErase (k : String) (l : List (String × α)) : List (String × α) :=
  l.filter (fun p => !(p.1 == k))

/-! ## In-process store (`MemoryStorage`, src/unnamed/part_000) -/

/-- An entry of the in-process store (`memoryEntry`): payload bytes plus the
expiry instant; `none` models the zero `time.Time` ("never expires"). -/
structure MemoryEntry where
  data : List Nat
  expiresAt : Option Int
deriving DecidableEq

/-- `memoryEntry.isExpired`: the zero expiry never expires; otherwise expired
once the current instant is strictly after `expiresAt` (`time.Now().After`). -/
def MemoryEntry.isExpired (now : Int) (e : MemoryEntry) : Bool :=
  match e.expiresAt with
  | none => false
  | some t => now > t

/-- State of `MemoryStorage`: the entry map, the normalized key prefix,
whether a GC ticker was started, and whether the `done` channel has been
closed (`close(s.done)` already executed). -/
structure MemoryStorage where
  data : List (String × MemoryEntry)
  keyPrefix : String
  gcTickerSet : Bool
  doneClosed : Bool
deriving DecidableEq

/-- Key-prefix normalization performed by `NewMemoryStorage`: empty prefix is
replaced by "session:"; a non-empty prefix whose last byte is not a colon gets
a colon appended. (The last byte of a UTF-8 string is `:` exactly when its
last character is `:`, so `String.back` matches the Go byte test.) -/
def newMemoryStorageKeyPrefix (keyPrefix : String) : String :=
  if keyPrefix = "" then "session:"
  else if keyPrefix.back ≠ ':' then keyPrefix ++ ":"
  else keyPrefix

/-- `NewMemoryStorage(keyPrefix, gcInterval)`: normalizes the prefix, starts
with an empty map and an open `done` channel, and starts the GC ticker only
when `gcInterval > 0`. -/
def newMemoryStorage (keyPrefix : String) (gcInterval : Int) : MemoryStorage :=
  { data := []
    keyPrefix := newMemoryStorageKeyPrefix keyPrefix
    gcTickerSet := gcInterval > 0
    doneClosed := false }

/-- `buildKey`: full key = configured prefix + logical key. -/
def MemoryStorage.buildKey (s : MemoryStorage) (key : String) : String :=
  s.keyPrefix ++ key

/-- `MemoryStorage.Get`: read the entry under the full key; a missing key is
absent; an expired entry is deleted (write-lock upgrade) and reported absent;
otherwise the stored bytes are returned. The Go method never returns an
error. Result: (returned value, state after the opportunistic delete). -/
def MemoryStorage.get (s : MemoryStorage) (key : String) (now : Int) :
    Option (List Nat) × MemoryStorage :=
  let fullKey := s.buildKey key
  match mapFind fullKey s.data with
  | none => (none, s)
  | some entry =>
    if entry.isExpired now then (none, { s with data := mapErase fullKey s.data })
    else (some entry.data, s)

/-- `MemoryStorage.Set`: empty key or empty value is ignored without error;
otherwise the payload is copied into a fresh entry whose expiry is
`now + exp` when `exp > 0` and the zero time otherwise. Result: (state after
the write, returned error — always nil in the source). -/
def MemoryStorage.set (s : MemoryStorage) (key : String) (val : List Nat)
    (exp now : Int) : MemoryStorage × Option String :=
  if key = "" ∨ val.length = 0 then (s, none)
  else
    let entry : MemoryEntry := { data := val, expiresAt := if exp > 0 then some (now + exp) else none }
    ({ s with data := mapInsert (s.buildKey key) entry s.data }, none)

/-- `MemoryStorage.Delete`: removes the full key; no error if absent. -/
def MemoryStorage.delete (s : MemoryStorage) (key : String) : MemoryStorage × Option String :=
  ({ s with data := mapErase (s.buildKey key) s.data }, none)

/-- `MemoryStorage.gc`: one locked pass deleting every expired entry. -/
def MemoryStorage.gc (s : MemoryStorage) (now : Int) : MemoryStorage :=
  { s with data := s.data.filter (fun p => !(p.2.isExpired now)) }

/-- `MemoryStorage.Close`: stops the ticker if set (idempotent in Go), then
executes `close(s.done)` unconditionally. Closing an already-closed Go
channel is a run-time panic, modelled as `none`. -/
def MemoryStorage.close (s : MemoryStorage) : Option MemoryStorage :=
  if s.doneClosed then none
  else some { s with doneClosed := true }

/-! ## Networked store (`RedisStorage`, src/redis.go)

The remote server state (one Redis database) is a map from full key to entry;
the server enforces expiry itself, so a read consults the entry TTL. The
`RedisStorage` value holds only the client handle (modelled by whether it is
set) and the normalized key prefix. -/

/-- One server-side Redis entry: payload plus optional absolute expiry. -/
structure RedisEntry where
  data : List Nat
  expiresAt : Option Int
deriving DecidableEq

/-- The remote Redis database contents. -/
structure RedisDB where
  entries : List (String × RedisEntry)
deriving DecidableEq

/-- `RedisStorage`: client handle (set or nil) plus normalized key prefix. -/
structure RedisStorage where
  clientSet : Bool
  keyPrefix : String
deriving DecidableEq

/-- Key-prefix normalization performed by `NewRedisStorage` (same text as
`NewMemoryStorage`): empty prefix becomes "session:", a non-empty prefix not
ending in a colon gets one appended. -/
def newRedisStorageKeyPrefix (keyPrefix : String) : String :=
  if keyPrefix = "" then "session:"
  else if keyPrefix.back ≠ ':' then keyPrefix ++ ":"
  else keyPrefix

/-- `NewRedisStorage(client, keyPrefix)`. -/
def newRedisStorage (clientSet : Bool) (keyPrefix : String) : RedisStorage :=
  { clientSet := clientSet, keyPrefix := newRedisStorageKeyPrefix keyPrefix }

/-- Server-side liveness of a key at instant `now`: the entry must exist and
its TTL (enforced by the server) must not have elapsed. -/
def RedisDB.lookupLive (db : RedisDB) (now : Int) (fullKey : String) : Option (List Nat) :=
  match mapFind fullKey db.entries with
  | none => none
  | some e =>
    match e.expiresAt with
    | none => some e.data
    | some t => if now ≥ t then none else some e.data

/-- `RedisStorage.Get`: fails fast when the client handle is nil; otherwise a
"not found" server reply (`redis.Nil`) maps to absent with nil error. -/
def RedisStorage.get (s : RedisStorage) (db : RedisDB) (key : String) (now : Int) :
    Option (List Nat) × Option String :=
  if !s.clientSet then (none, some "redis client is nil")
  else (db.lookupLive now (s.keyPrefix ++ key), none)

/-- `RedisStorage.Set`: fails fast when the client handle is nil; an empty
key or empty value is then ignored without error; otherwise the server stores
the payload, with no expiration directive when `exp` is 0 (negative TTLs are
not exercised by any claim). Result: (server state, returned error). -/
def RedisStorage.set (s : RedisStorage) (db : RedisDB) (key : String) (val : List Nat)
    (exp now : Int) : RedisDB × Option String :=
  if !s.clientSet then (db, some "redis client is nil")
  else if key = "" ∨ val.length = 0 then (db, none)
  else
    let entry : RedisEntry := { data := val, expiresAt := if exp > 0 then some (now + exp) else none }
    ({ entries := mapInsert (s.keyPrefix ++ key) entry db.entries }, none)

/-! ## Generic record store key prefix (`NewRedisStore`, src/redis_store.go) -/

/-- Key-prefix normalization performed by `NewRedisStore`: a non-empty prefix
whose last character is not a colon gets one appended; an empty prefix is
kept empty (no default is substituted). -/
def newRedisStoreKeyPrefix (keyPrefix : String) : String :=
  if keyPrefix ≠ "" ∧ keyPrefix.back ≠ ':' then keyPrefix ++ ":"
  else keyPrefix

/-! ## JSON values

The serialization format used by the Manager and the record store is
`encoding/json`. JSON values are modelled by `Jval`; a `time.Time` marshals
to its RFC3339Nano string, which is injective on instants, so it is kept as
the dedicated constructor `jtime` carrying the instant. Object keys produced
by the encoders below are pairwise distinct, matching `json.Marshal`. -/

inductive Jval where
  | jnull : Jval
  | jbool : Bool → Jval
  | jstr : String → Jval
  | jtime : Int → Jval
  | jarr : List Jval → Jval
  | jobj : List (String × Jval) → Jval

mutual

/-- Boolean equality on JSON values. -/
def Jval.beq : Jval → Jval → Bool
  | .jnull, .jnull => true
  | .jbool a, .jbool b => a == b
  | .jstr a, .jstr b => a == b
  | .jtime a, .jtime b => a == b
  | .jarr xs, .jarr ys => Jval.beqList xs ys
  | .jobj xs, .jobj ys => Jval.beqFields xs ys
  | _, _ => false

/-- Boolean equality on JSON value lists. -/
def Jval.beqList : List Jval → List Jval → Bool
  | [], [] => true
  | x :: xs, y :: ys => Jval.beq x y && Jval.beqList xs ys
  | _, _ => false

/-- Boolean equality on JSON object field lists. -/
def Jval.beqFields : List (String × Jval) → List (String × Jval) → Bool
  | [], [] => true
  | (k, v) :: xs, (l, w) :: ys => k == l && Jval.beq v w && Jval.beqFields xs ys
  | _, _ => false

end

mutual

theorem Jval.eq_of_beq : ∀ {a b : Jval}, Jval.beq a b = true → a = b
  | .jnull, .jnull, _ => rfl
  | .jbool _, .jbool _, h => by
    simpa [Jval.beq] using h
  | .jstr _, .jstr _, h => by
    simpa [Jval.beq] using h
  | .jtime _, .jtime _, h => by
    simpa [Jval.beq] using h
  | .jarr xs, .jarr ys, h =>
    congrArg Jval.jarr
      (Jval.eqList_of_beqList (show Jval.beqList xs ys = true by simpa [Jval.beq] using h))
  | .jobj xs, .jobj ys, h =>
    congrArg Jval.jobj
      (Jval.eqFields_of_beqFields (show Jval.beqFields xs ys = true by simpa [Jval.beq] using h))

theorem Jval.eqList_of_beqList : ∀ {a b : List Jval}, Jval.beqList a b = true → a = b
  | [], [], _ => rfl
  | x :: xs, y :: ys, h => by
    have h' := h
    simp only [Jval.beqList, Bool.and_eq_true] at h'
    rw [Jval.eq_of_beq h'.1, Jval.eqList_of_beqList h'.2]

theorem Jval.eqFields_of_beqFields :
    ∀ {a b : List (String × Jval)}, Jval.beqFields a b = true → a = b
  | [], [], _ => rfl
  | (k, v) :: xs, (l, w) :: ys, h => by
    have h' := h
    simp only [Jval.beqFields, Bool.and_eq_true, beq_iff_eq] at h'
    rw [h'.1.1, Jval.eq_of_beq h'.1.2, Jval.eqFields_of_beqFields h'.2]

end

mutual

theorem Jval.beq_refl : ∀ (a : Jval), Jval.beq a a = true
  | .jnull => rfl
  | .jbool b => by simp [Jval.beq]
  | .jstr s => by simp [Jval.beq]
  | .jtime t => by simp [Jval.beq]
  | .jarr xs => by simpa [Jval.beq] using Jval.beqList_refl xs
  | .jobj xs => by simpa [Jval.beq] using Jval.beqFields_refl xs

theorem Jval.beqList_refl : ∀ (a : List Jval), Jval.beqList a a = true
  | [] => rfl
  | x :: xs => by
    simp only [Jval.beqList, Bool.and_eq_true]
    exact ⟨Jval.beq_refl x, Jval.beqList_refl xs⟩

theorem Jval.beqFields_refl : ∀ (a : List (String × Jval)), Jval.beqFields a a = true
  | [] => rfl
  | (k, v) :: xs => by
    simp [Jval.beqFields, Jval.beq_refl v, Jval.beqFields_refl xs]

end

instance : DecidableEq Jval := fun a b =>
  if h : Jval.beq a b = true then isTrue (Jval.eq_of_beq h)
  else isFalse (fun he => h (he ▸ Jval.beq_refl a))

/-- Go `omitempty` test for a map or slice field: zero length (whether the
nil value or an empty non-nil value). `none` models the nil map/slice. -/
def optListEmpty : Option (List α) → Bool
  | none => true
  | some l => l.isEmpty

/-! ## SessionData (src/storage.go) -/

/-- `SessionData`: the structured session record. Nil-vs-empty of the Go map
`Data` and the slices `AMR`/`Scopes` is observable, so they are `Option`s of
association list / list (`none` = nil). -/
structure SessionData where
  id : String
  userID : String
  email : String
  phone : String
  authenticated : Bool
  data : Option (List (String × Jval))
  createdAt : Int
  expiresAt : Int
  lastAccessedAt : Int
  amr : Option (List String)
  scopes : Option (List String)
deriving DecidableEq

/-- `NewSessionData(id, expiration)`: fresh unauthenticated record with an
empty non-nil `Data` map, nil AMR/scopes, and `expiresAt = now + expiration`. -/
def newSessionData (id : String) (expiration now : Int) : SessionData :=
  { id := id
    userID := ""
    email := ""
    phone := ""
    authenticated := false
    data := some []
    createdAt := now
    expiresAt := now + expiration
    lastAccessedAt := now
    amr := none
    scopes := none }

/-- `SessionData.IsExpired`: `time.Now().After(ExpiresAt)`. -/
def SessionData.isExpired (now : Int) (s : SessionData) : Bool :=
  now > s.expiresAt

/-- `SessionData.Touch`: sets `LastAccessedAt` to now. -/
def SessionData.touch (now : Int) (s : SessionData) : SessionData :=
  { s with lastAccessedAt := now }

/-- `json.Marshal` of `SessionData`, at the `Jval` level: fields in struct
order, with the `omitempty` fields (`user_id`, `email`, `phone`, `data`,
`amr`, `scopes`) omitted when their value has zero length. -/
def encodeSessionData (r : SessionData) : Jval :=
  .jobj
    ([("id", .jstr r.id)]
      ++ (if r.userID = "" then [] else [("user_id", .jstr r.userID)])
      ++ (if r.email = "" then [] else [("email", .jstr r.email)])
      ++ (if r.phone = "" then [] else [("phone", .jstr r.phone)])
      ++ [("authenticated", .jbool r.authenticated)]
      ++ (if optListEmpty r.data then [] else [("data", .jobj (r.data.getD []))])
      ++ [("created_at", .jtime r.createdAt),
          ("expires_at", .jtime r.expiresAt),
          ("last_accessed_at", .jtime r.lastAccessedAt)]
      ++ (if optListEmpty r.amr then [] else [("amr", .jarr ((r.amr.getD []).map .jstr))])
      ++ (if optListEmpty r.scopes then []
          else [("scopes", .jarr ((r.scopes.getD []).map .jstr))]))

/-! Decoding (`json.Unmarshal` into the zero struct): a missing key or a JSON
null leaves the field at its zero value; a present key of the wrong JSON type
is an unmarshal error (`none` at the outer level). -/

/-- Unmarshal a string field: zero value "" when missing or null. -/
def jgetString (fs : List (String × Jval)) (k : String) : Option String :=
  match mapFind k fs with
  | none => some ""
  | some .jnull => some ""
  | some (.jstr s) => some s
  | some _ => none

/-- Unmarshal a bool field: zero value `false` when missing or null. -/
def jgetBool (fs : List (String × Jval)) (k : String) : Option Bool :=
  match mapFind k fs with
  | none => some false
  | some .jnull => some false
  | some (.jbool b) => some b
  | some _ => none

/-- Unmarshal a `time.Time` field: zero time when missing or null. -/
def jgetTime (fs : List (String × Jval)) (k : String) : Option Int :=
  match mapFind k fs with
  | none => some 0
  | some .jnull => some 0
  | some (.jtime t) => some t
  | some _ => none

/-- Unmarshal the elements of a JSON array into strings. -/
def decodeStrings : List Jval → Option (List String)
  | [] => some []
  | .jstr s :: rest => (decodeStrings rest).map (s :: ·)
  | _ => none

/-- Unmarshal a `[]string` field: nil when missing or null; an array decodes
element-wise (an empty array gives the empty non-nil slice). -/
def jgetStringList (fs : List (String × Jval)) (k : String) :
    Option (Option (List String)) :=
  match mapFind k fs with
  | none => some none
  | some .jnull => some none
  | some (.jarr xs) =>
    match decodeStrings xs with
    | some l => some (some l)
    | none => none
  | some _ => none

/-- Unmarshal a `map[string]interface{}` field: nil when missing or null; an
object decodes to a non-nil map with the same entries. -/
def jgetDataMap (fs : List (String × Jval)) (k : String) :
    Option (Option (List (String × Jval))) :=
  match mapFind k fs with
  | none => some none
  | some .jnull => some none
  | some (.jobj m) => some (some m)
  | some _ => none

/-- `json.Unmarshal` of bytes into a `SessionData`, at the `Jval` level: the
payload must be an object, and each present field must have the right type. -/
def decodeSessionData : Jval → Option SessionData
  | .jobj fs => do
    let id ← jgetString fs "id"
    let userID ← jgetString fs "user_id"
    let email ← jgetString fs "email"
    let phone ← jgetString fs "phone"
    let authenticated ← jgetBool fs "authenticated"
    let data ← jgetDataMap fs "data"
    let createdAt ← jgetTime fs "created_at"
    let expiresAt ← jgetTime fs "expires_at"
    let lastAccessedAt ← jgetTime fs "last_accessed_at"
    let amr ← jgetStringList fs "amr"
    let scopes ← jgetStringList fs "scopes"
    pure { id := id, userID := userID, email := email, phone := phone
           authenticated := authenticated, data := data, createdAt := createdAt
           expiresAt := expiresAt, lastAccessedAt := lastAccessedAt
           amr := amr, scopes := scopes }
  | _ => none

/-- Canonical form of an optional collection: a present-but-empty value is
identified with the nil value (what an `omitempty` round trip produces). -/
def canonOptList : Option (List α) → Option (List α)
  | none => none
  | some [] => none
  | some l => some l

/-- Canonical form of a `SessionData` under the `omitempty` round trip:
empty `Data`/`AMR`/`Scopes` collapse to nil; all other fields unchanged. -/
def canonSessionData (r : SessionData) : SessionData :=
  { r with data := canonOptList r.data
           amr := canonOptList r.amr
           scopes := canonOptList r.scopes }

/-! ## KVSessionRecord (src/redis_store.go) -/

/-- `KVSessionRecord`: the generic record of the record store. `Data` has no
`omitempty`, so a nil map marshals to JSON null. -/
structure KVSessionRecord where
  id : String
  data : Option (List (String × Jval))
  createdAt : Int
  expiresAt : Int
deriving DecidableEq

/-- `json.Marshal` of a `KVSessionRecord`: all four fields always present;
a nil `Data` map becomes JSON null. -/
def encodeKVSessionRecord (r : KVSessionRecord) : Jval :=
  .jobj
    [("id", .jstr r.id),
     ("data", match r.data with | none => .jnull | some m => .jobj m),
     ("created_at", .jtime r.createdAt),
     ("expires_at", .jtime r.expiresAt)]

/-- `json.Unmarshal` into a `KVSessionRecord`. -/
def decodeKVSessionRecord : Jval → Option KVSessionRecord
  | .jobj fs => do
    let id ← jgetString fs "id"
    let data ← jgetDataMap fs "data"
    let createdAt ← jgetTime fs "created_at"
    let expiresAt ← jgetTime fs "expires_at"
    pure { id := id, data := data, createdAt := createdAt, expiresAt := expiresAt }
  | _ => none

/-! ## Session configuration (src/factory.go, `Config`) -/

/-- `Config`: immutable session/cookie configuration value. -/
structure Config where
  expiration : Int
  cookieName : String
  cookieDomain : String
  cookiePath : String
  secure : Bool
  httpOnly : Bool
  sameSite : String
  keyPrefix : String
deriving DecidableEq

/-- ASCII whitespace, as `strings.TrimSpace` treats it (the Unicode spaces
it also trims cannot occur inside the four recognized same-site words). -/
def goIsSpace (c : Char) : Bool :=
  c = ' ' ∨ c = '\t' ∨ c = '\n' ∨ c = '\x0b' ∨ c = '\x0c' ∨ c = '\r'

/-- `strings.TrimSpace`: drop leading and trailing whitespace. -/
def goTrimSpace (s : String) : String :=
  String.mk (((s.data.dropWhile goIsSpace).reverse.dropWhile goIsSpace).reverse)

/-- `strings.ToLower` on one character, restricted to ASCII (no non-ASCII
character lowercases to a letter of "strict", "lax", "none" or "disabled",
so the restriction does not change which inputs normalize to those words). -/
def goToLowerChar (c : Char) : Char :=
  if 'A' ≤ c ∧ c ≤ 'Z' then Char.ofNat (c.toNat + 32) else c

/-- `strings.ToLower`, character-wise. -/
def goToLower (s : String) : String :=
  String.mk (s.data.map goToLowerChar)

/-- `normalizeSameSite`: trims whitespace, lowercases, and maps the four
recognized spellings to their canonical forms; anything else is returned
unchanged. -/
def normalizeSameSite (value : String) : String :=
  let lowered := goToLower (goTrimSpace value)
  if lowered = "strict" then "Strict"
  else if lowered = "lax" then "Lax"
  else if lowered = "none" then "None"
  else if lowered = "disabled" then "Disabled"
  else value

/-! ## Session lifecycle manager (src/session.go) -/

/-- `Manager`: owns a `Storage` (kept abstract here — the calls it would make
are returned as data) and a `Config`. -/
structure Manager where
  config : Config
deriving DecidableEq

/-- The `storage.Set(key, val, ttl)` call a Manager operation issues. -/
structure StorageSetCall where
  key : String
  val : Jval
  ttl : Int
deriving DecidableEq

/-- `Manager.CreateSession(id)`: a fresh record via `NewSessionData` with the
configured expiration. -/
def Manager.createSession (m : Manager) (id : String) (now : Int) : SessionData :=
  newSessionData id m.config.expiration now

/-- `Manager.SaveSession`: marshals the record (which cannot fail for these
field types), computes `ttl = time.Until(session.ExpiresAt)` and replaces a
non-positive ttl by the configured expiration, then issues
`storage.Set(session.ID, data, ttl)`. -/
def Manager.saveSessionCall (m : Manager) (now : Int) (session : SessionData) :
    StorageSetCall :=
  let ttl := session.expiresAt - now
  let ttl := if ttl ≤ 0 then m.config.expiration else ttl
  { key := session.id, val := encodeSessionData session, ttl := ttl }

/-- Outcome of `Manager.LoadSession`: an error, absent (`nil, nil`), or a
loaded record. -/
inductive LoadResult where
  | err : String → LoadResult
  | absent : LoadResult
  | found : SessionData → LoadResult
deriving DecidableEq

/-- `Manager.LoadSession(id)`, as a function of what `storage.Get(id)`
returned: a storage error is wrapped; absent bytes give `nil, nil`;
non-deserializable bytes give an unmarshal error; a deserialized but expired
record is deleted from storage (the Bool records whether the delete was
issued) and reported absent with nil error. -/
def Manager.loadSession (now : Int)
    (getRes : Except String (Option Jval)) : LoadResult × Bool :=
  match getRes with
  | .error e => (.err ("failed to get session: " ++ e), false)
  | .ok none => (.absent, false)
  | .ok (some data) =>
    match decodeSessionData data with
    | none => (.err "failed to unmarshal session", false)
    | some session =>
      if session.isExpired now then (.absent, true)
      else (.found session, false)

/-- `Manager.TouchSession`: `session.Touch()` then
`session.ExpiresAt = time.Now().Add(m.config.Expiration)`, then re-save.
The two consecutive `time.Now()` calls are modelled as the same instant.
Result: the mutated record and the save call it issues. -/
def Manager.touchSession (m : Manager) (now : Int) (session : SessionData) :
    SessionData × StorageSetCall :=
  let session := { session.touch now with expiresAt := now + m.config.expiration }
  (session, m.saveSessionCall now session)

/-! ## Cookie attribute assembly (src/session.go) -/

/-- The fiber session middleware configuration the Manager produces. The
fiber same-site constants are the strings "strict", "lax", "none",
"disabled" (as the repository tests assert). -/
structure FiberSessionConfig where
  expiration : Int
  keyLookup : String
  cookieDomain : String
  cookiePath : String
  cookieSecure : Bool
  cookieHTTPOnly : Bool
  cookieSameSite : String
deriving DecidableEq

/-- `Manager.FiberSessionConfig`: maps the normalized same-site value to the
fiber mode (default Lax), and forces the secure flag when the normalized
same-site is "None" and the configured secure flag is off. -/
def Manager.fiberSessionConfig (m : Manager) : FiberSessionConfig :=
  let normalizedSameSite := normalizeSameSite m.config.sameSite
  let sameSite :=
    if normalizedSameSite = "Strict" then "strict"
    else if normalizedSameSite = "None" then "none"
    else if normalizedSameSite = "Disabled" then "disabled"
    else "lax"
  let cookieSecure := m.config.secure
  let cookieSecure :=
    if normalizedSameSite = "None" && !cookieSecure then true else cookieSecure
  { expiration := m.config.expiration
    keyLookup := "cookie:" ++ m.config.cookieName
    cookieDomain := m.config.cookieDomain
    cookiePath := m.config.cookiePath
    cookieSecure := cookieSecure
    cookieHTTPOnly := m.config.httpOnly
    cookieSameSite := sameSite }

/-- A `fiber.Cookie` value. -/
structure Cookie where
  name : String
  value : String
  expires : Int
  path : String
  domain : String
  secure : Bool
  httpOnly : Bool
  sameSite : String
deriving DecidableEq

/-- `CreateCookie(config, sessionID)`: same same-site normalization and
secure-forcing logic as `FiberSessionConfig`, producing a cookie whose
expiry is `now + config.Expiration`. -/
def createCookie (config : Config) (sessionID : String) (now : Int) : Cookie :=
  let normalizedSameSite := normalizeSameSite config.sameSite
  let sameSite :=
    if normalizedSameSite = "Strict" then "strict"
    else if normalizedSameSite = "None" then "none"
    else if normalizedSameSite = "Disabled" then "disabled"
    else "lax"
  let cookieSecure := config.secure
  let cookieSecure :=
    if normalizedSameSite = "None" && !cookieSecure then true else cookieSecure
  { name := config.cookieName
    value := sessionID
    expires := now + config.expiration
    path := config.cookiePath
    domain := config.cookieDomain
    secure := cookieSecure
    httpOnly := config.httpOnly
    sameSite := sameSite }

/-! ## KVManager wrapper (src/redis_store.go) -/

/-- `KVManager`: wraps a generic `Store` (kept abstract — the calls it would
make are returned as data) and a configured default TTL. -/
structure KVManager where
  defaultTTL : Int
deriving DecidableEq

/-- The `store.Create(data, ttl)` call `KVManager.Create` issues. -/
structure KVCreateCall where
  data : Option (List (String × Jval))
  ttl : Int
deriving DecidableEq

/-- A `store.Set(id, data, ttl)` call issued by the `KVManager`. -/
structure KVSetCall where
  id : String
  data : Option (List (String × Jval))
  ttl : Int
deriving DecidableEq

/-- `KVManager.Create`: substitutes the default TTL for a non-positive ttl,
then delegates to `store.Create`. -/
def KVManager.createCall (m : KVManager) (data : Option (List (String × Jval)))
    (ttl : Int) : KVCreateCall :=
  let ttl := if ttl ≤ 0 then m.defaultTTL else ttl
  { data := data, ttl := ttl }

/-- `KVManager.Set`: substitutes the default TTL for a non-positive ttl, then
delegates to `store.Set`. -/
def KVManager.setCall (m : KVManager) (id : String)
    (data : Option (List (String × Jval))) (ttl : Int) : KVSetCall :=
  let ttl := if ttl ≤ 0 then m.defaultTTL else ttl
  { id := id, data := data, ttl := ttl }

/-- `KVManager.Refresh(id, ttl)`, as a function of what `store.Get(id)`
returned: a get error is returned as-is; an absent record returns the nil
error without issuing any write (`.ok none`); otherwise the record data is
rewritten with the (default-substituted) ttl. -/
def KVManager.refresh (m : KVManager) (id : String) (ttl : Int)
    (getRes : Except String (Option KVSessionRecord)) :
    Except String (Option KVSetCall) :=
  match getRes with
  | .error e => .error e
  | .ok none => .ok none
  | .ok (some rec) =>
    let ttl := if ttl ≤ 0 then m.defaultTTL else ttl
    .ok (some { id := id, data := rec.data, ttl := ttl })

/-! ## Shared concrete values used by counterexamples and witnesses -/

/-- `DefaultConfig()`: 24h expiration (nanoseconds), cookie "session_id",
path "/", secure and http-only, same-site "Lax", prefix "session:". -/
def defaultConfig : Config :=
  { expiration := 86400000000000
    cookieName := "session_id"
    cookieDomain := ""
    cookiePath := "/"
    secure := true
    httpOnly := true
    sameSite := "Lax"
    keyPrefix := "session:" }

end SessionKit

namespace SessionKit

/-! ## C1 — close() idempotency -/

/-- C1: the claim that `close()` is idempotent on every store fails on the
In-Process Store. For `NewMemoryStorage("", 0)` (sweep interval 0, so no
sweep task was ever started) the first `Close` succeeds, but a second
`Close` executes `close(s.done)` on the already-closed `done` channel, which
is a Go run-time panic (modelled as `none`): `close()` is not idempotent. -/
theorem memoryStorage_second_close_panics :
    ((newMemoryStorage "" 0).close).isSome = true ∧
      (newMemoryStorage "" 0).close.bind MemoryStorage.close = none := by
  decide

/-! ## C2 — key-prefix normalization at construction -/

/-- C2 counterexample: the generic record store constructor `NewRedisStore`
keeps an empty prefix empty instead of substituting the default "session:". -/
theorem redisStoreKeyPrefix_empty_cex :
    newRedisStoreKeyPrefix "" ≠ "session:" := by decide

/-- C2 (amended): all three constructors append ':' to a non-empty prefix
not already ending in ':'; `NewMemoryStorage` and `NewRedisStorage` replace
an empty prefix by the default "session:", but `NewRedisStore` keeps an
empty prefix empty. -/
theorem keyPrefix_normalization (p : String) (hne : p ≠ "") (hc : p.back ≠ ':') :
    newMemoryStorageKeyPrefix p = p ++ ":" ∧
      newRedisStorageKeyPrefix p = p ++ ":" ∧
      newRedisStoreKeyPrefix p = p ++ ":" ∧
      newMemoryStorageKeyPrefix "" = "session:" ∧
      newRedisStorageKeyPrefix "" = "session:" ∧
      newRedisStoreKeyPrefix "" = "" := by
  simp [newMemoryStorageKeyPrefix, newRedisStorageKeyPrefix, newRedisStoreKeyPrefix, hne, hc]

/-- C2 witness: the amended normalization at the concrete prefix "myapp". -/
theorem keyPrefix_normalization_witness :
    newMemoryStorageKeyPrefix "myapp" = "myapp:" ∧
      newRedisStorageKeyPrefix "myapp" = "myapp:" ∧
      newRedisStoreKeyPrefix "myapp" = "myapp:" := by
  have h := keyPrefix_normalization "myapp" (by decide) (by decide)
  exact ⟨h.1, h.2.1, h.2.2.1⟩

/-! ## C3 — serialization round trip -/

/-- C3 counterexample: even a freshly created session record does not
round-trip exactly. `NewSessionData` initializes `Data` as an empty non-nil
map, `omitempty` drops it from the encoding, and decoding leaves the field
as the nil map, so decode ∘ encode changes the field. -/
theorem serialization_roundtrip_cex :
    decodeSessionData (encodeSessionData (newSessionData "s1" 10 0)) ≠
      some (newSessionData "s1" 10 0) := by
  decide

theorem decodeStrings_map (l : List String) :
    decodeStrings (l.map .jstr) = some l := by
  induction l with
  | nil => rfl
  | cons a as ih => simp [decodeStrings, ih]

theorem decodeStrings_cons_map (a : String) (l : List String) :
    decodeStrings (.jstr a :: l.map .jstr) = some (a :: l) := by
  simp [decodeStrings, decodeStrings_map]

set_option maxHeartbeats 2000000 in
theorem decode_encode_sessionData (r : SessionData) :
    decodeSessionData (encodeSessionData r) = some (canonSessionData r) := by
  obtain ⟨id, userID, email, phone, auth, data, ca, ea, la, amr, scopes⟩ := r
  by_cases h1 : userID = "" <;> by_cases h2 : email = "" <;> by_cases h3 : phone = "" <;>
    rcases data with _ | ⟨_ | ⟨d, ds⟩⟩ <;> rcases amr with _ | ⟨_ | ⟨a, as_⟩⟩ <;>
    rcases scopes with _ | ⟨_ | ⟨sc, scs⟩⟩ <;>
    simp [encodeSessionData, decodeSessionData, canonSessionData, canonOptList,
      optListEmpty, jgetString, jgetBool, jgetTime, jgetStringList, jgetDataMap,
      mapFind, h1, h2, h3, decodeStrings_map, decodeStrings_cons_map]

theorem decode_encode_kvRecord (k : KVSessionRecord) :
    decodeKVSessionRecord (encodeKVSessionRecord k) = some k := by
  obtain ⟨id, data, ca, ea⟩ := k
  rcases data with _ | m <;>
    simp [encodeKVSessionRecord, decodeKVSessionRecord, jgetString, jgetDataMap,
      jgetTime, mapFind]

/-- C3 (amended): encode-then-decode reproduces every field of a
`KVSessionRecord` exactly, and reproduces every field of a `SessionData` up
to the canonicalization forced by `omitempty`: an empty-but-non-nil
`Data`/`AMR`/`Scopes` collection decodes as the nil collection (insertion
order of AMR/scopes entries is preserved). On records already in canonical
form the round trip is the identity. -/
theorem serialization_roundtrip_canonical :
    (∀ r : SessionData,
        decodeSessionData (encodeSessionData r) = some (canonSessionData r)) ∧
      ∀ k : KVSessionRecord,
        decodeKVSessionRecord (encodeKVSessionRecord k) = some k :=
  ⟨decode_encode_sessionData, decode_encode_kvRecord⟩

/-! ## C4 — touchSession -/

/-- A session record whose caller-set `expiresAt` (1000) lies beyond
`now + configured expiration` (100 + 10). -/
def farFutureRecord : SessionData :=
  { id := "s1", userID := "", email := "", phone := "", authenticated := false
    data := none, createdAt := 0, expiresAt := 1000, lastAccessedAt := 0
    amr := none, scopes := none }

/-- C4 counterexample: touching `farFutureRecord` at instant 100 under a
configured expiration of 10 sets `expiresAt` to 110 < 1000 — `touchSession`
does not strictly increase `expiresAt` for every record. -/
theorem touchSession_not_increasing_cex :
    ¬ farFutureRecord.expiresAt <
        ((Manager.mk { defaultConfig with expiration := 10 }).touchSession
          100 farFutureRecord).1.expiresAt := by
  decide

/-- C4 (amended): `touchSession` sets `lastAccessedAt` to now and
`expiresAt` to now + configured expiration; both fields strictly increase
exactly when the pre-touch `lastAccessedAt` is before now and the pre-touch
`expiresAt` is before now + expiration (as is the case for any record whose
fields were set at an earlier instant with the same configuration). -/
theorem touchSession_updates (m : Manager) (now : Int) (r : SessionData)
    (h1 : r.lastAccessedAt < now) (h2 : r.expiresAt < now + m.config.expiration) :
    (m.touchSession now r).1.lastAccessedAt = now ∧
      (m.touchSession now r).1.expiresAt = now + m.config.expiration ∧
      r.lastAccessedAt < (m.touchSession now r).1.lastAccessedAt ∧
      r.expiresAt < (m.touchSession now r).1.expiresAt := by
  refine ⟨rfl, rfl, ?_, ?_⟩ <;> simpa [Manager.touchSession, SessionData.touch] using ‹_›

/-- C4 witness: a record touched at instant 100 with expiration 10, whose
pre-touch fields (lastAccessedAt 0, expiresAt 50) are in the past. -/
theorem touchSession_updates_witness :
    (((Manager.mk { defaultConfig with expiration := 10 }).touchSession 100
        { farFutureRecord with expiresAt := 50 }).1.lastAccessedAt = 100) ∧
      (((Manager.mk { defaultConfig with expiration := 10 }).touchSession 100
        { farFutureRecord with expiresAt := 50 }).1.expiresAt = 110) := by
  have h := touchSession_updates (Manager.mk { defaultConfig with expiration := 10 })
    100 { farFutureRecord with expiresAt := 50 } (by decide) (by decide)
  exact ⟨h.1, h.2.1⟩

/-! ## C5 — saveSession storage TTL -/

/-- C5: `saveSession` always issues the write (never refuses), under the
record's own id with the serialized record as payload; the storage TTL is
`expiresAt - now` when positive and the full configured expiration when that
difference is zero or negative (in particular for an already-expired
record). -/
theorem saveSession_ttl (m : Manager) (now : Int) (r : SessionData) :
    (m.saveSessionCall now r).key = r.id ∧
      (m.saveSessionCall now r).val = encodeSessionData r ∧
      (0 < r.expiresAt - now → (m.saveSessionCall now r).ttl = r.expiresAt - now) ∧
      (r.expiresAt - now ≤ 0 → (m.saveSessionCall now r).ttl = m.config.expiration) := by
  refine ⟨rfl, rfl, fun h => ?_, fun h => ?_⟩
  · simp [Manager.saveSessionCall, not_le.mpr h]
  · simp [Manager.saveSessionCall, h]

/-- C5 witness: at instant 100, a record expiring at 130 is stored with TTL
30, and a record that expired at 90 is stored with the configured
expiration 3600 as TTL. -/
theorem saveSession_ttl_witness :
    ((Manager.mk { defaultConfig with expiration := 3600 }).saveSessionCall 100
        { farFutureRecord with expiresAt := 130 }).ttl = 30 ∧
      ((Manager.mk { defaultConfig with expiration := 3600 }).saveSessionCall 100
        { farFutureRecord with expiresAt := 90 }).ttl = 3600 := by
  refine ⟨?_, ?_⟩
  · have h := saveSession_ttl (Manager.mk { defaultConfig with expiration := 3600 })
      100 { farFutureRecord with expiresAt := 130 }
    simpa using h.2.2.1 (by decide)
  · have h := saveSession_ttl (Manager.mk { defaultConfig with expiration := 3600 })
      100 { farFutureRecord with expiresAt := 90 }
    simpa using h.2.2.2 (by decide)

/-! ## C7 — KVManager refresh no-op and default TTL substitution -/

/-- C7: `Refresh` on an absent id returns the nil error without issuing any
write, for every supplied ttl; and `Create`, `Set` and `Refresh` substitute
the configured default TTL whenever the supplied ttl is non-positive. -/
theorem kvManager_refresh_noop_and_default_ttl (m : KVManager) (id : String)
    (ttl : Int) (data : Option (List (String × Jval))) (rec : KVSessionRecord) :
    m.refresh id ttl (.ok none) = .ok none ∧
      (ttl ≤ 0 →
        (m.createCall data ttl).ttl = m.defaultTTL ∧
          (m.setCall id data ttl).ttl = m.defaultTTL ∧
          m.refresh id ttl (.ok (some rec)) =
            .ok (some { id := id, data := rec.data, ttl := m.defaultTTL })) := by
  refine ⟨rfl, fun h => ⟨?_, ?_, ?_⟩⟩ <;>
    simp [KVManager.createCall, KVManager.setCall, KVManager.refresh, h]

/-- C7 witness: refresh of an absent id with ttl 5 is a no-op, and create,
set and refresh with ttl 0 use the default TTL 600. -/
theorem kvManager_refresh_noop_and_default_ttl_witness :
    (KVManager.mk 600).refresh "sess_x" 5 (.ok none) = .ok none ∧
      ((KVManager.mk 600).createCall (some []) 0).ttl = 600 ∧
      ((KVManager.mk 600).setCall "sess_x" (some []) 0).ttl = 600 ∧
      (KVManager.mk 600).refresh "sess_x" 0 (.ok (some ⟨"sess_x", some [], 1, 2⟩)) =
        .ok (some { id := "sess_x", data := some [], ttl := 600 }) := by
  have h0 := kvManager_refresh_noop_and_default_ttl (KVManager.mk 600) "sess_x" 5
    (some []) ⟨"sess_x", some [], 1, 2⟩
  have h := (kvManager_refresh_noop_and_default_ttl (KVManager.mk 600) "sess_x" 0
    (some []) ⟨"sess_x", some [], 1, 2⟩).2 (by decide)
  exact ⟨h0.1, h.1, h.2.1, h.2.2⟩

/-! ## C6 — loadSession outcomes -/

/-- C6: for any stored payload, (a) bytes that fail to deserialize make
`loadSession` surface an error (not an absent result); (b) bytes that
deserialize to a record whose `expiresAt` is in the past make `loadSession`
issue the storage delete and return absent with nil error; (c) an absent
`get` result yields absent with nil error. -/
theorem loadSession_outcomes (now : Int) (d : Jval) (s : SessionData) :
    (decodeSessionData d = none →
        Manager.loadSession now (.ok (some d)) =
          (.err "failed to unmarshal session", false)) ∧
      (decodeSessionData d = some s → s.expiresAt < now →
        Manager.loadSession now (.ok (some d)) = (.absent, true)) ∧
      Manager.loadSession now (.ok none) = (.absent, false) := by
  refine ⟨fun h => ?_, fun h hexp => ?_, rfl⟩
  · simp [Manager.loadSession, h]
  · simp [Manager.loadSession, h, SessionData.isExpired, hexp]

/-- A canonical-form record that expired at instant 0 (used as the concrete
expired payload of the C6 witness). -/
def expiredRecord : SessionData :=
  { id := "s1", userID := "", email := "", phone := "", authenticated := false
    data := none, createdAt := 0, expiresAt := 0, lastAccessedAt := 0
    amr := none, scopes := none }

/-- C6 witness: at instant 5, a non-record payload errors, the serialized
`expiredRecord` is deleted and reported absent, and an absent get result is
reported absent. -/
theorem loadSession_outcomes_witness :
    Manager.loadSession 5 (.ok (some (.jstr "garbage"))) =
        (.err "failed to unmarshal session", false) ∧
      Manager.loadSession 5 (.ok (some (encodeSessionData expiredRecord))) =
        (.absent, true) ∧
      Manager.loadSession 5 (.ok none) = (.absent, false) := by
  refine ⟨(loadSession_outcomes 5 (.jstr "garbage") expiredRecord).1 (by decide),
    (loadSession_outcomes 5 (encodeSessionData expiredRecord) expiredRecord).2.1
      (by decide) (by decide),
    (loadSession_outcomes 5 (.jstr "garbage") expiredRecord).2.2⟩

/-! ## C8 — empty key / empty payload writes -/

/-- C8 counterexample: on a Networked Store whose client handle is nil (the
nil check precedes the empty-key check), even the supposedly no-op write
`set("", p, ttl)` returns an error rather than no error. -/
theorem redisSet_nilClient_errors_cex :
    ((RedisStorage.mk false "session:").set ⟨[]⟩ "" [1] 3600 0).2 =
      some "redis client is nil" := by
  decide

/-- C8 (amended): `set("", p, ttl)` and `set(k, emptyPayload, ttl)` return
no error and leave the state unchanged on the In-Process Store always, and
on the Networked Store provided its client handle is set; a key absent
before such a write is still absent after it. With a nil client handle the
Networked Store instead fails fast (see the counterexample). -/
theorem set_empty_noop (ms : MemoryStorage) (rs : RedisStorage) (db : RedisDB)
    (k : String) (p : List Nat) (ttl now later : Int)
    (hc : rs.clientSet = true) :
    ms.set "" p ttl now = (ms, none) ∧
      ms.set k [] ttl now = (ms, none) ∧
      rs.set db "" p ttl now = (db, none) ∧
      rs.set db k [] ttl now = (db, none) ∧
      ((ms.get k later).1 = none → (((ms.set k [] ttl now).1).get k later).1 = none) := by
  refine ⟨?_, ?_, ?_, ?_, ?_⟩
  · simp [MemoryStorage.set]
  · simp [MemoryStorage.set]
  · simp [RedisStorage.set, hc]
  · simp [RedisStorage.set, hc]
  · intro h
    simpa [MemoryStorage.set] using h

/-- C8 witness: the no-op writes at concrete arguments, on a fresh memory
store and a networked store with a set client. -/
theorem set_empty_noop_witness :
    (newMemoryStorage "t" 0).set "" [7] 60 0 = (newMemoryStorage "t" 0, none) ∧
      (newMemoryStorage "t" 0).set "k" [] 60 0 = (newMemoryStorage "t" 0, none) ∧
      (newRedisStorage true "t").set ⟨[]⟩ "" [7] 60 0 = (⟨[]⟩, none) ∧
      (newRedisStorage true "t").set ⟨[]⟩ "k" [] 60 0 = (⟨[]⟩, none) := by
  have h := set_empty_noop (newMemoryStorage "t" 0) (newRedisStorage true "t")
    ⟨[]⟩ "k" [7] 60 0 1 (by decide)
  exact ⟨h.1, h.2.1, h.2.2.1, h.2.2.2.1⟩

/-! ## C9 — zero TTL means never expires on the In-Process Store -/

/-- The GC sweep leaves the key prefix unchanged. -/
theorem foldl_gc_keyPrefix (gcs : List Int) :
    ∀ st : MemoryStorage, (gcs.foldl MemoryStorage.gc st).keyPrefix = st.keyPrefix := by
  induction gcs with
  | nil => intro st; rfl
  | cons t ts ih => intro st; rw [List.foldl_cons, ih]; rfl

/-- Any number of GC sweeps preserves a head entry with no expiry. -/
theorem foldl_gc_preserves_immortal_head (gcs : List Int) :
    ∀ (st : MemoryStorage) (fk : String) (p : List Nat),
      (∃ rest, st.data = (fk, ⟨p, none⟩) :: rest) →
      ∃ rest, (gcs.foldl MemoryStorage.gc st).data = (fk, ⟨p, none⟩) :: rest := by
  induction gcs with
  | nil => intro st fk p h; exact h
  | cons t ts ih =>
    rintro st fk p ⟨rest, hd⟩
    rw [List.foldl_cons]
    apply ih
    refine ⟨rest.filter (fun q => !(q.2.isExpired t)), ?_⟩
    simp [MemoryStorage.gc, hd, MemoryEntry.isExpired]

/-- C9: after `set(k, p, 0)` (non-empty key and payload) on the In-Process
Store, `get(k)` returns `p` at every later instant, through any sequence of
background sweeps: a zero-TTL entry is never treated as expired by a read
and never removed by the sweep. -/
theorem memory_zero_ttl_never_expires (s : MemoryStorage) (k : String)
    (p : List Nat) (now later : Int) (gcs : List Int)
    (hk : k ≠ "") (hp : p ≠ []) :
    ((gcs.foldl MemoryStorage.gc ((s.set k p 0 now).1)).get k later).1 = some p := by
  have hset : (s.set k p 0 now).1 =
      { s with data := mapInsert (s.buildKey k) ⟨p, none⟩ s.data } := by
    simp [MemoryStorage.set, hk, List.length_eq_zero, hp]
  rw [hset]
  obtain ⟨rest, hdata⟩ := foldl_gc_preserves_immortal_head gcs
    { s with data := mapInsert (s.buildKey k) ⟨p, none⟩ s.data } (s.buildKey k) p
    ⟨s.data.filter (fun q => !(q.1 == s.buildKey k)), rfl⟩
  have hpfx := foldl_gc_keyPrefix gcs
    { s with data := mapInsert (s.buildKey k) ⟨p, none⟩ s.data }
  simp only [MemoryStorage.get, MemoryStorage.buildKey] at *
  rw [hpfx, hdata]
  simp [mapFind, MemoryEntry.isExpired]

/-- C9 witness: the persisted zero-TTL entry at concrete arguments, across
two sweeps. -/
theorem memory_zero_ttl_never_expires_witness :
    ((([50, 100] : List Int).foldl MemoryStorage.gc
        (((newMemoryStorage "t" 0).set "k" [7] 0 0).1)).get "k" 1000000).1 =
      some [7] :=
  memory_zero_ttl_never_expires (newMemoryStorage "t" 0) "k" [7] 0 1000000
    [50, 100] (by decide) (by decide)

/-! ## C10 — SameSite None forces the Secure flag -/

/-- C10: whenever the configured SameSite value normalizes (trimmed,
case-insensitively) to "None", both `CreateCookie` and `FiberSessionConfig`
produce a secure cookie, even when the configuration's Secure field is
false. -/
theorem sameSiteNone_forces_secure (m : Manager) (sid : String) (now : Int)
    (h : normalizeSameSite m.config.sameSite = "None") :
    (createCookie m.config sid now).secure = true ∧
      m.fiberSessionConfig.cookieSecure = true := by
  cases hsec : m.config.secure <;>
    simp [createCookie, Manager.fiberSessionConfig, h, hsec]

/-- C10 witness: a configuration with Secure=false and SameSite " nOnE "
(normalizing to "None") still yields secure cookies from both paths. -/
theorem sameSiteNone_forces_secure_witness :
    (createCookie { defaultConfig with secure := false, sameSite := " nOnE " }
        "sid-1" 0).secure = true ∧
      (Manager.mk { defaultConfig with secure := false, sameSite := " nOnE " }
        ).fiberSessionConfig.cookieSecure = true :=
  sameSiteNone_forces_secure
    (Manager.mk { defaultConfig with secure := false, sameSite := " nOnE " })
    "sid-1" 0 (by decide)

end SessionKit
